import Mathlib

/-!
Verification of the yt-long-scraper pipeline against its specification.

Shallow embedding conventions:
- Python dates are modelled as day numbers (Int); the difference of two dates
  in days is the difference of the day numbers.
- Python float metric values are modelled as exact rationals; real-valued
  scoring formulas (log-based) are modelled over the reals.
- Fallible operations return Option; absent dict keys and SQL NULL are none.
-/

namespace YtScraper

/-! ## Cycle detection and channel analysis (yt_channel_analysis.py) -/

/-- A long-video row as fetched from the database for analysis:
video_id is a text column, upload_date and view_count may be NULL. -/
structure Video where
  video_id : String
  upload_date : Option Int
  view_count : Option Int
deriving DecidableEq, Repr

def LONG_VIDEO_SECONDS : Int := 1080

def GAP_DAYS : Int := 30 * 5

def MIN_SUBSCRIBERS : Int := 100

def MIN_LONG_VIDEOS_TOTAL : Nat := 2

def MIN_CYCLE_LONG_VIDEOS : Int := 2

def MIN_HIGH_RATIO_VIDEOS : Int := 2

/-- Threshold 0.3 from the source (HIGH_RATIO_THRESHOLD). -/
def HIGH_RATIO_THRESHOLD : ℚ := 3 / 10

/-- Threshold 0.25 from the source (MEDIAN_RATIO_THRESHOLD). -/
def MEDIAN_RATIO_THRESHOLD : ℚ := 1 / 4

/-- Result of detect_current_cycle (dataclass CycleResult). -/
structure CycleResult where
  cycle_start_date : Option Int
  cycle_videos : List Video
deriving DecidableEq, Repr

/-- The accumulation loop of detect_current_cycle: walk the DESC-sorted list,
append the current video, stop after the video that precedes a gap of at
least GAP_DAYS; a pair with a missing date never triggers the stop. -/
def detect_cycle_videos : List Video → List Video
  | [] => []
  | [v] => [v]
  | v :: w :: rest =>
    match v.upload_date, w.upload_date with
    | some c, some n =>
      if c - n ≥ GAP_DAYS then [v] else v :: detect_cycle_videos (w :: rest)
    | _, _ => v :: detect_cycle_videos (w :: rest)

/-- Minimum of a list of day numbers, none on the empty list
(Python min with default None). -/
def min_date : List Int → Option Int
  | [] => none
  | d :: ds =>
    match min_date ds with
    | none => some d
    | some m => some (min d m)

/-- detect_current_cycle: cycle members plus the minimum upload date
among members that carry a date. -/
def detect_current_cycle (videos_desc : List Video) : CycleResult :=
  let cycle := detect_cycle_videos videos_desc
  ⟨min_date (cycle.filterMap Video.upload_date), cycle⟩

/-- decision_reason: the qualification decision on cycle metrics.
Mirrors the if-chain of the source, including the distinct reason for a
missing median. -/
def decision_reason (cycle_long_videos_count : Int)
    (high_ratio_videos_count : Int)
    (median_views_ratio_ : Option ℚ) : Bool × Option String :=
  if cycle_long_videos_count < MIN_CYCLE_LONG_VIDEOS then
    (false, some "cycle_long_videos_lt_3")
  else if high_ratio_videos_count < MIN_HIGH_RATIO_VIDEOS then
    (false, some "lt_2_videos_with_views_ratio_ge_0_3")
  else
    match median_views_ratio_ with
    | none => (false, some "median_views_ratio_missing")
    | some r =>
      if r < MEDIAN_RATIO_THRESHOLD then
        (false, some "median_views_ratio_below_0_25")
      else (true, none)

/-- Truncation toward zero, the behaviour of Python int() on a number. -/
def rat_trunc (q : ℚ) : Int := Int.tdiv q.num q.den

/-- Stable insertion of one element: x is placed before the first y
with le x y. -/
def insert_le {α : Type} (le : α → α → Bool) (x : α) : List α → List α
  | [] => [x]
  | y :: ys => if le x y then x :: y :: ys else y :: insert_le le x ys

/-- Stable insertion sort (the model of Python sorted / list.sort). -/
def sort_by {α : Type} (le : α → α → Bool) (l : List α) : List α :=
  l.foldr (insert_le le) []

/-- median of a list of ints followed by int() as in median_int of the
source: middle element for odd length, truncated mean of the two middle
elements for even length. -/
def median_int (values : List Int) : Option Int :=
  if values.isEmpty then none
  else
    let s := sort_by (fun a b => decide (a ≤ b)) values
    let n := values.length
    if n % 2 = 1 then some (s.getD (n / 2) 0)
    else some (rat_trunc (((s.getD (n / 2 - 1) 0 : ℚ) + (s.getD (n / 2) 0 : ℚ)) / 2))

/-- median of a list of rationals as in median_float of the source. -/
def median_rat (values : List ℚ) : Option ℚ :=
  if values.isEmpty then none
  else
    let s := sort_by (fun a b => decide (a ≤ b)) values
    let n := values.length
    if n % 2 = 1 then some (s.getD (n / 2) 0)
    else some ((s.getD (n / 2 - 1) 0 + s.getD (n / 2) 0) / 2)

/-- Maximum of a list, none on the empty list (Python max on a possibly
empty sequence, guarded by the caller). -/
def max_list {α : Type} [Max α] : List α → Option α
  | [] => none
  | x :: xs =>
    match max_list xs with
    | none => some x
    | some m => some (max x m)

/-- Descending comparison on the sort key (upload_date, video_id): true when
the key of a is at least the key of b.  On the call site every upload_date
is some, so the default value of getD is never compared. -/
def video_key_ge (a b : Video) : Bool :=
  let da := a.upload_date.getD 0
  let db := b.upload_date.getD 0
  if db < da then true
  else if da < db then false
  else !(decide (a.video_id < b.video_id))

/-- Sort by (upload_date, video_id) descending, stable, as the reverse sort
of the source. -/
def sort_videos_desc (l : List Video) : List Video :=
  sort_by video_key_ge l

/-- The analysis result row.  Early returns of the source build a dict
without the metric keys; an absent key is none here. -/
structure AnalysisRow where
  channel_url : String
  subscriber_count : Option Int
  cycle_start_date : Option Int
  cycle_long_videos_count : Option Int
  median_views : Option Int
  max_views : Option Int
  median_views_ratio_ : Option ℚ
  max_views_ratio_ : Option ℚ
  qualified : Bool
  analysis_reason : Option String
deriving DecidableEq, Repr

/-- analyze_one_channel: the fetch of long videos is passed in as a list
(the function itself never touches storage beyond that call). -/
def analyze_one_channel (channel_url : String) (subscriber_count : Option Int)
    (videos_long : List Video) : AnalysisRow :=
  match subscriber_count with
  | none =>
    ⟨channel_url, none, none, none, none, none, none, none, false,
      some "subscriber_count_missing"⟩
  | some s =>
    if s < MIN_SUBSCRIBERS then
      ⟨channel_url, some s, none, none, none, none, none, none, false,
        some "subscriber_count_below_100"⟩
    else if videos_long.length < MIN_LONG_VIDEOS_TOTAL then
      ⟨channel_url, some s, none, none, none, none, none, none, false,
        some "lt_3_long_videos"⟩
    else
      let videos_dated := videos_long.filter (fun v => v.upload_date.isSome)
      if videos_dated.isEmpty then
        ⟨channel_url, some s, none, none, none, none, none, none, false,
          some "upload_date_missing"⟩
      else
        let cycle := detect_current_cycle (sort_videos_desc videos_dated)
        let cycle_videos := cycle.cycle_videos
        let cycle_count : Int := cycle_videos.length
        let views : List Int :=
          cycle_videos.map (fun v => max 0 (v.view_count.getD 0))
        let ratios : List ℚ :=
          cycle_videos.map (fun v =>
            if 0 < s then ((max 0 (v.view_count.getD 0) : Int) : ℚ) / (s : ℚ) else 0)
        let high_count : Int :=
          (ratios.filter (fun r => decide (HIGH_RATIO_THRESHOLD ≤ r))).length
        let decision := decision_reason cycle_count high_count (median_rat ratios)
        ⟨channel_url, some s, cycle.cycle_start_date, some cycle_count,
          median_int views, max_list views, median_rat ratios, max_list ratios,
          decision.1, decision.2⟩

/-! ## Text normalization and views parsing (yt_normalization_validation.py)

Strings are modelled as lists of characters.  Python float values produced
by these parsers are modelled as exact rationals; on every string the
parsers accept, the float computations are exact. -/

/-- The whitespace class of Python str.strip and the regex class used by
normalize_text. -/
def is_space (c : Char) : Bool :=
  c = ' ' || c = '\t' || c = '\n' || c = '\r' || c = '\x0b' || c = '\x0c'

/-- Python str.strip. -/
def strip (l : List Char) : List Char :=
  ((l.dropWhile is_space).reverse.dropWhile is_space).reverse

/-- Collapse every whitespace run into one space (the regex substitution of
normalize_text).  The fuel argument only drives structural recursion; the
callers pass the length of the list, which always suffices because every
step consumes at least one character. -/
def collapse_ws_fuel : Nat → List Char → List Char
  | 0, l => l
  | _ + 1, [] => []
  | f + 1, c :: cs =>
    if is_space c then ' ' :: collapse_ws_fuel f (cs.dropWhile is_space)
    else c :: collapse_ws_fuel f cs

/-- normalize_text on a present string: strip, then collapse whitespace;
none when the stripped text is empty. -/
def normalize_text_l (l : List Char) : Option (List Char) :=
  let t := strip l
  if t.isEmpty then none else some (collapse_ws_fuel t.length t)

/-- Python str.replace for a nonempty pattern, scanning left to right over
non-overlapping occurrences.  Fuel as in collapse_ws_fuel. -/
def replace_sub_fuel (pat rep : List Char) : Nat → List Char → List Char
  | 0, l => l
  | _ + 1, [] => []
  | f + 1, c :: cs =>
    if pat.isPrefixOf (c :: cs) then
      rep ++ replace_sub_fuel pat rep f ((c :: cs).drop pat.length)
    else c :: replace_sub_fuel pat rep f cs

/-- Python str.replace; the empty-pattern case never occurs at call sites. -/
def replace_sub (pat rep l : List Char) : List Char :=
  if pat.isEmpty then l else replace_sub_fuel pat rep l.length l

/-- Python substring containment (the in operator on str). -/
def contains_sub (l pat : List Char) : Bool :=
  match l with
  | [] => pat.isEmpty
  | _ :: cs => pat.isPrefixOf l || contains_sub cs pat

/-- Value of a string of decimal digits. -/
def digits_to_nat (l : List Char) : Nat :=
  l.foldl (fun a c => a * 10 + (c.toNat - 48)) 0

/-- Python str.split on the dot character. -/
def split_dot : List Char → List (List Char)
  | [] => [[]]
  | c :: cs =>
    if c = '.' then [] :: split_dot cs
    else
      match split_dot cs with
      | [] => [[c]]
      | p :: ps => (c :: p) :: ps

/-- The exact value of a decimal literal with integer part ip and
fractional part fp. -/
def float_val (ip fp : List Char) : ℚ :=
  (digits_to_nat ip : ℚ) + (digits_to_nat fp : ℚ) / (10 : ℚ) ^ fp.length

/-- Python float() restricted to the unsigned decimal literals that reach it
here (digit characters and at most one dot, at least one digit); every other
input raises ValueError, i.e. none. -/
def parse_float_chars (l : List Char) : Option ℚ :=
  match split_dot l with
  | [ip] =>
    if !ip.isEmpty && ip.all Char.isDigit then some (digits_to_nat ip : ℚ) else none
  | [ip, fp] =>
    if (!ip.isEmpty || !fp.isEmpty) && ip.all Char.isDigit && fp.all Char.isDigit then
      some (float_val ip fp)
    else none
  | _ => none

/-- Python str.rfind for a single character: highest index holding the
character, -1 when absent. -/
def rfind (l : List Char) (ch : Char) : Int :=
  match l with
  | [] => -1
  | x :: xs =>
    let r := rfind xs ch
    if r ≥ 0 then r + 1
    else if x = ch then 0 else -1

/-- parse_human_number: the separator-disambiguation policy of the source.
Both separators: the rightmost one is decimal, the other is stripped.
Single comma: decimal with a suffix, otherwise stripped as grouping.
Single dot: decimal with a suffix, otherwise grouping exactly when the dot
is followed by a single 3-digit part. -/
def parse_human_number (num_raw : List Char) (has_suffix : Bool) : Option ℚ :=
  let s := strip num_raw
  if s.isEmpty then none
  else if ',' ∈ s ∧ '.' ∈ s then
    let last_comma := rfind s ','
    let last_dot := rfind s '.'
    let seps := if last_comma > last_dot then ('.', ',') else (',', '.')
    let s2 := (s.filter (fun c => c != seps.1)).map (fun c => if c = seps.2 then '.' else c)
    parse_float_chars s2
  else if ',' ∈ s then
    if has_suffix then parse_float_chars (s.map (fun c => if c = ',' then '.' else c))
    else parse_float_chars (s.filter (fun c => c != ','))
  else if '.' ∈ s then
    if has_suffix then parse_float_chars s
    else
      let parts := split_dot s
      if parts.length = 2 ∧ (parts.getD 1 []).length = 3 then
        parse_float_chars (parts.getD 0 [] ++ parts.getD 1 [])
      else parse_float_chars s
  else parse_float_chars s

/-- The separator class of the views regex. -/
def is_sep (c : Char) : Bool := c = '.' || c = ','

/-- One or more repetitions of a separator followed by exactly three digits
(the grouped-thousands part of the views regex), greedy. -/
def groups_plus : List Char → Option (List Char × List Char)
  | s :: a :: b :: c :: rest =>
    if is_sep s && a.isDigit && b.isDigit && c.isDigit then
      match groups_plus rest with
      | some (g, r) => some (s :: a :: b :: c :: g, r)
      | none => some ([s, a, b, c], rest)
    else none
  | _ => none

/-- The optional final separator-plus-digits part of the views regex,
greedy; yields the matched characters and the remainder. -/
def opt_frac (l : List Char) : List Char × List Char :=
  match l with
  | s :: rest =>
    if is_sep s && !(rest.takeWhile Char.isDigit).isEmpty then
      (s :: rest.takeWhile Char.isDigit, rest.dropWhile Char.isDigit)
    else ([], l)
  | [] => ([], [])

/-- The num group of the views regex at a fixed position: the grouped
alternative is preferred, falling back to a plain digit run; either is
followed by the optional fractional part.  Fails exactly when no digit
starts here. -/
def match_num (l : List Char) : Option (List Char × List Char) :=
  let ds := l.takeWhile Char.isDigit
  if ds.isEmpty then none
  else
    let alt1 :=
      if ds.length ≤ 3 then
        match groups_plus (l.drop ds.length) with
        | some (g, r) => some (ds ++ g, r)
        | none => none
      else none
    match alt1 with
    | some nr =>
      let fr := opt_frac nr.2
      some (nr.1 ++ fr.1, fr.2)
    | none =>
      let fr := opt_frac (l.drop ds.length)
      some (ds ++ fr.1, fr.2)

/-- The optional suffix group of the views regex, with the ordered
alternation of the source pattern: the single-character class k, m, b is
tried before the word alternatives. -/
def match_suf (l : List Char) : List Char :=
  match l with
  | [] => []
  | c :: _ =>
    if c = 'k' ∨ c = 'm' ∨ c = 'b' then [c]
    else if List.isPrefixOf "mil".data l then "mil".data
    else if List.isPrefixOf "millon".data l then "millon".data
    else if List.isPrefixOf "millones".data l then "millones".data
    else if List.isPrefixOf "millón".data l then "millón".data
    else if List.isPrefixOf "billones".data l then "billones".data
    else if List.isPrefixOf "billon".data l then "billon".data
    else if List.isPrefixOf "bn".data l then "bn".data
    else []

/-- A full regex match attempt at a fixed position: num, then optional
whitespace, then the optional suffix. -/
def match_at (l : List Char) : Option (List Char × List Char) :=
  match match_num l with
  | none => none
  | some nr => some (nr.1, match_suf (nr.2.dropWhile is_space))

/-- re.search for the views regex: leftmost position whose match attempt
succeeds. -/
def search_number : List Char → Option (List Char × List Char)
  | [] => none
  | c :: cs =>
    match match_at (c :: cs) with
    | some r => some r
    | none => search_number cs

/-- The explicit no-views phrases of the source. -/
def no_views_phrases : List (List Char) := [ "no views".data, "sin vistas".data ]

/-- The word tokens removed around the number, in source order. -/
def removal_tokens : List (List Char) :=
  [ "views".data, "view".data, "vistas".data, "visualizaciones".data,
    "reproducciones".data, "de".data, "•".data ]

/-- The suffix-to-multiplier table of parse_views_text, in source order. -/
def suffix_multiplier (suf : List Char) : Int :=
  if suf = "k".data ∨ suf = "mil".data then 1000
  else if suf = "m".data ∨ suf = "millon".data ∨ suf = "millón".data ∨ suf = "millones".data then
    1000000
  else if suf = "b".data ∨ suf = "bn".data ∨ suf = "billon".data ∨ suf = "billones".data then
    1000000000
  else if suf = "mb".data then 1000000
  else 1

/-- parse_views_text: normalize, detect no-views phrases, remove word
tokens, search the numeric token, parse it, scale by the suffix multiplier,
truncate to int and clamp at zero. -/
def parse_views_text (views_text : Option String) : Option Int :=
  match views_text with
  | none => none
  | some raw =>
    match normalize_text_l raw.data with
    | none => none
    | some text =>
      let lower := text.map Char.toLower
      if no_views_phrases.any (fun p => contains_sub lower p) then some 0
      else
        let cleaned := removal_tokens.foldl (fun acc t => replace_sub t [' '] acc) lower
        let cleaned2 := (normalize_text_l cleaned).getD []
        match search_number cleaned2 with
        | none => none
        | some ns =>
          match parse_human_number ns.1 (!ns.2.isEmpty) with
          | none => none
          | some q =>
            some (max 0 (rat_trunc (q * (suffix_multiplier ns.2 : ℚ))))

/-! ## Video validation (yt_normalization_validation.py) -/

/-- The frozen dataclass ValidationResult. -/
structure ValidationResult where
  passed : Bool
  reason : Option String
deriving DecidableEq, Repr

/-- The guard duration_seconds_estimated is not None and below 180. -/
def duration_rule_fails : Option Int → Bool
  | some d => decide (d < 180)
  | none => false

/-- The guard views_estimated is not None and below 1000. -/
def views_rule_fails : Option Int → Bool
  | some v => decide (v < 1000)
  | none => false

/-- validate_video: a present low duration rejects first, then a present
low view count; otherwise the video passes.  The published timestamp is
accepted unchecked, as in the source. -/
def validate_video (views_estimated : Option Int) (published_at_estimated : Option Int)
    (duration_seconds_estimated : Option Int) : ValidationResult :=
  if duration_rule_fails duration_seconds_estimated then ⟨false, some "duration_too_low"⟩
  else if views_rule_fails views_estimated then ⟨false, some "views_too_low"⟩
  else ⟨true, none⟩

/-! ## Channel scoring (yt_channel_scoring.py)

Python float scores are modelled over the reals; math.log2 and math.log10
are Real.logb at bases 2 and 10. -/

noncomputable def W_PERF : ℝ := 0.40

noncomputable def W_PEAK : ℝ := 0.25

noncomputable def W_CONSISTENCY : ℝ := 0.20

noncomputable def W_SIZE : ℝ := 0.15

/-- The clamp helper of the scoring module. -/
noncomputable def clamp (value lo hi : ℝ) : ℝ :=
  if value < lo then lo else if hi < value then hi else value

/-- A row of channels_analysis as consumed by the scorer, after the type
coercions of _score_one: each field is either absent or already typed. -/
structure AnalysisDbRow where
  channel_url : Option String
  subscriber_count : Option Int
  cycle_long_videos_count : Option Int
  median_views_ratio_ : Option ℝ
  max_views_ratio_ : Option ℝ
  qualified : Option Bool

/-- The score payload upserted into channels_score. -/
structure ScoreRow where
  channel_url : String
  final_score : ℝ
  s_perf : ℝ
  s_peak : ℝ
  s_consistency : ℝ
  s_size : ℝ

/-- missing_reason: the exclusion guard of the scorer, in source order. -/
def missing_reason (subscriber_count : Option Int) (cycle_long_videos_count : Option Int)
    (median_views_ratio_ : Option ℝ) (max_views_ratio_ : Option ℝ)
    (qualified : Option Bool) : Option String :=
  if qualified = some false then some "qualified_false"
  else if qualified = none then some "qualified_missing"
  else if subscriber_count = none then some "subscriber_count_missing"
  else if cycle_long_videos_count = none then some "cycle_long_videos_count_missing"
  else if median_views_ratio_.isNone then some "median_views_ratio_missing"
  else if max_views_ratio_.isNone then some "max_views_ratio_missing"
  else none

/-- score_components: the four normalized components and the weighted,
clamped final score. -/
noncomputable def score_components (subscriber_count : Int) (cycle_long_videos_count : Int)
    (median_views_ratio_ : ℝ) (max_views_ratio_ : ℝ) : ℝ × ℝ × ℝ × ℝ × ℝ :=
  let s_perf := clamp (median_views_ratio_ / 1.0) 0 1
  let s_peak := clamp (max_views_ratio_ / 2.0) 0 1
  let s_consistency :=
    if cycle_long_videos_count ≤ 0 then 0
    else clamp (Real.logb 2 (cycle_long_videos_count : ℝ) / Real.logb 2 10) 0 1
  let s_size :=
    if subscriber_count ≤ 0 then 1.0
    else 1.0 - clamp (Real.logb 10 (subscriber_count : ℝ) / 6.0) 0 1
  let final_score :=
    clamp (W_PERF * s_perf + W_PEAK * s_peak + W_CONSISTENCY * s_consistency + W_SIZE * s_size) 0 1
  (final_score, s_perf, s_peak, s_consistency, s_size)

/-- score_one: skip rows without a channel_url, produce the all-zero score
row when the exclusion guard fires, otherwise the computed components.
The last match arm is unreachable: a none missing_reason guarantees all
four metric fields are present. -/
noncomputable def score_one (row : AnalysisDbRow) : Option ScoreRow :=
  match row.channel_url with
  | none => none
  | some url =>
    if url = "" then none
    else
      match missing_reason row.subscriber_count row.cycle_long_videos_count
          row.median_views_ratio_ row.max_views_ratio_ row.qualified with
      | some _ => some ⟨url, 0, 0, 0, 0, 0⟩
      | none =>
        match row.subscriber_count, row.cycle_long_videos_count,
            row.median_views_ratio_, row.max_views_ratio_ with
        | some s, some c, some m, some x =>
          let r := score_components s c m x
          some ⟨url, r.1, r.2.1, r.2.2.1, r.2.2.2.1, r.2.2.2.2⟩
        | _, _, _, _ => some ⟨url, 0, 0, 0, 0, 0⟩

/-! ## Raw-video persistence (db.py, insert_videos_raw)

The videos_raw table is modelled as an association list keyed by the
primary key video_id; a single INSERT with ON CONFLICT DO NOTHING is the
sequential insert-if-absent fold below. -/

/-- A raw scraped video dict as passed to insert_videos_raw; channels is
the list of scraped channel urls (a non-dict entry or a missing url key is
none). -/
structure RawVideoIn where
  video_id : Option String
  query : Option String
  channel_url : Option String
  channels : List (Option String)
  duration : Option String
  views_text : Option String
  published_text : Option String
  video_type : Option String
  is_multi_creator : Option Bool
deriving DecidableEq, Repr

/-- The video_url helper of db.py. -/
def video_url_of (video_id : String) : String :=
  "https://www.youtube.com/watch?v=" ++ video_id

/-- The thumbnail_url helper of db.py. -/
def thumbnail_url_of (video_id : String) : String :=
  "https://i.ytimg.com/vi/" ++ video_id ++ "/hqdefault.jpg"

/-- extract_channel_url: prefer a nonempty url on the first scraped
channel, fall back to a nonempty channel_url field, otherwise none. -/
def extract_channel_url (raw : RawVideoIn) : Option String :=
  let fallback :=
    match raw.channel_url with
    | some u => if u = "" then none else some u
    | none => none
  match raw.channels with
  | first :: _ =>
    match first with
    | some u => if u = "" then fallback else some u
    | none => fallback
  | [] => fallback

/-- One stored row of videos_raw.  Search-run ids are opaque; Nat stands
for uuid. -/
structure StoredRawVideo where
  video_id : String
  search_run_id : Nat
  query : Option String
  video_url : String
  channel_url : Option String
  duration_text : Option String
  views_text : Option String
  published_text : Option String
  thumbnail_url : String
  video_type : Option String
  is_multi_creator : Option Bool
deriving DecidableEq, Repr

/-- The column row built for one raw video by insert_videos_raw. -/
def build_row (search_run_id : Nat) (video_id : String) (raw : RawVideoIn) : StoredRawVideo :=
  ⟨video_id, search_run_id, raw.query, video_url_of video_id, extract_channel_url raw,
    raw.duration, raw.views_text, raw.published_text, thumbnail_url_of video_id,
    raw.video_type, raw.is_multi_creator⟩

/-- The dedup pass of insert_videos_raw: drop entries without a usable
video_id and within-batch repeats, keeping first occurrences in order. -/
def prepare_batch (seen : List String) : List RawVideoIn → List (String × RawVideoIn)
  | [] => []
  | raw :: rest =>
    match raw.video_id with
    | none => prepare_batch seen rest
    | some id =>
      if id = "" ∨ id ∈ seen then prepare_batch seen rest
      else (id, raw) :: prepare_batch (id :: seen) rest

/-- The videos_raw table keyed by video_id. -/
abbrev VideosRawTable := List (String × StoredRawVideo)

/-- Sequential insert-if-absent of prepared rows (ON CONFLICT (video_id) DO
NOTHING ... RETURNING), counting newly inserted rows. -/
def insert_rows (t : VideosRawTable) : List (String × StoredRawVideo) → VideosRawTable × Nat
  | [] => (t, 0)
  | kv :: rest =>
    if kv.1 ∈ t.map Prod.fst then insert_rows t rest
    else
      let r := insert_rows (t ++ [kv]) rest
      (r.1, r.2 + 1)

/-- insert_videos_raw: returns the new table plus
(inserted_count, ignored_duplicates_count). -/
def insert_videos_raw (search_run_id : Nat) (videos : List RawVideoIn)
    (t : VideosRawTable) : VideosRawTable × Int × Int :=
  if videos.isEmpty then (t, 0, 0)
  else
    let batch := (prepare_batch [] videos).map (fun p => (p.1, build_row search_run_id p.1 p.2))
    if batch.isEmpty then (t, 0, 0)
    else
      let attempted : Int := batch.length
      let r := insert_rows t batch
      (r.1, (r.2 : Int), max 0 (attempted - (r.2 : Int)))

/-! ## Work-queue claim manager (db.py, claim_channels_for_analysis and
claim_channels_for_discovery)

Both claim operations share the shape: candidates are upstream keys absent
from the terminal table and from the claim table, oldest first, limited to
the batch size; the single SQL statement inserts them into the claim table
with ON CONFLICT DO NOTHING and returns exactly the newly inserted keys.
The statement is modelled as: candidate selection reads a snapshot of the
database (possibly stale under concurrency), while the conflict-filtered
insert executes against the current state.  Concurrent executions of the
atomic statement are serialized. -/

/-- The storage state seen by one claim stage. -/
structure ClaimDB where
  upstream : List String
  terminal : List String
  claims : List String
deriving DecidableEq, Repr

/-- The candidate selection of the claim statement: upstream keys, in
arrival order, not yet terminal and not yet claimed, limited to the batch
size. -/
def claim_candidates (db : ClaimDB) (limit : Nat) : List String :=
  (db.upstream.filter (fun k => decide (k ∉ db.terminal ∧ k ∉ db.claims))).take limit

/-- The insert half of the claim statement against the current state:
already-claimed keys are skipped silently (ON CONFLICT DO NOTHING), and
only newly inserted keys are returned. -/
def claim_insert : ClaimDB → List String → List String × ClaimDB
  | db, [] => ([], db)
  | db, k :: rest =>
    if k ∈ db.claims then claim_insert db rest
    else
      let r := claim_insert ⟨db.upstream, db.terminal, db.claims ++ [k]⟩ rest
      (k :: r.1, r.2)

/-- One whole claim call: select candidates from a snapshot, insert against
the current state. -/
def claim_call (snapshot db : ClaimDB) (limit : Nat) : List String × ClaimDB :=
  claim_insert db (claim_candidates snapshot limit)

/-! ## Theorems -/

/-- Claim C1, counterexample.  For long videos dated day 0, day 10 and
day 200 (given to cycle segmentation most-recent first, as the analyzer
sorts them), the cycle is exactly the single day-200 video with
cycle_start_date day 200 — not the first two videos with start day 0 as
the claim states: the 190-day gap below the most recent video ends the
cycle immediately. -/
theorem C1_counterexample :
    detect_current_cycle
        [ ⟨"c", some 200, none⟩, ⟨"b", some 10, none⟩, ⟨"a", some 0, none⟩ ] =
      ⟨some 200, [ ⟨"c", some 200, none⟩ ]⟩ ∧
    CycleResult.cycle_videos
        (detect_current_cycle
          [ ⟨"c", some 200, none⟩, ⟨"b", some 10, none⟩, ⟨"a", some 0, none⟩ ]) ≠
      [ ⟨"b", some 10, none⟩, ⟨"a", some 0, none⟩ ] ∧
    CycleResult.cycle_start_date
        (detect_current_cycle
          [ ⟨"c", some 200, none⟩, ⟨"b", some 10, none⟩, ⟨"a", some 0, none⟩ ]) ≠
      some 0 := by
  decide

/-- Claim C1, amended.  For every channel whose long videos are dated
day 0, day 10 and day 200 of any base day (sorted most-recent first as the
analyzer produces them), cycle segmentation yields a cycle of exactly the
most recent video (day 200), and cycle_start_date = day 200. -/
theorem C1_cycle_of_three_dates (b : Int) (v1 v2 v3 : Video)
    (h1 : v1.upload_date = some (b + 200)) (h2 : v2.upload_date = some (b + 10))
    (h3 : v3.upload_date = some b) :
    detect_current_cycle [v1, v2, v3] = ⟨some (b + 200), [v1]⟩ := by
  norm_num [detect_current_cycle, detect_cycle_videos, h1, h2, h3, min_date, GAP_DAYS,
    List.filterMap_cons]

/-- Witness for C1_cycle_of_three_dates at base day 0. -/
theorem C1_cycle_of_three_dates_witness :
    detect_current_cycle
        [ ⟨"c", some (0 + 200), none⟩, ⟨"b", some (0 + 10), none⟩, ⟨"a", some 0, none⟩ ] =
      ⟨some (0 + 200), [ ⟨"c", some (0 + 200), none⟩ ]⟩ :=
  C1_cycle_of_three_dates 0 ⟨"c", some (0 + 200), none⟩ ⟨"b", some (0 + 10), none⟩
    ⟨"a", some 0, none⟩ rfl rfl rfl

/-- Claim C2, counterexample.  With a qualifying cycle count and high-ratio
count but a missing median ratio, the decision reason is
median_views_ratio_missing, not median_views_ratio_below_0_25 as the
claim states for the null case. -/
theorem C2_counterexample :
    decision_reason 2 2 none = (false, some "median_views_ratio_missing") ∧
    decision_reason 2 2 none ≠ (false, some "median_views_ratio_below_0_25") := by
  decide

/-- Claim C2, amended.  The qualification decision on a cycle: fewer than 2
long videos disqualifies with cycle_long_videos_lt_3; otherwise fewer than
2 high-ratio videos disqualifies with lt_2_videos_with_views_ratio_ge_0_3;
otherwise a missing median ratio disqualifies with
median_views_ratio_missing; otherwise a median ratio below 0.25
disqualifies with median_views_ratio_below_0_25; otherwise the channel
qualifies with no reason. -/
theorem C2_decision_cases (c h : Int) (m : Option ℚ) :
    (c < 2 → decision_reason c h m = (false, some "cycle_long_videos_lt_3")) ∧
    (2 ≤ c → h < 2 →
      decision_reason c h m = (false, some "lt_2_videos_with_views_ratio_ge_0_3")) ∧
    (2 ≤ c → 2 ≤ h → m = none →
      decision_reason c h m = (false, some "median_views_ratio_missing")) ∧
    (∀ r : ℚ, 2 ≤ c → 2 ≤ h → m = some r → r < 1 / 4 →
      decision_reason c h m = (false, some "median_views_ratio_below_0_25")) ∧
    (∀ r : ℚ, 2 ≤ c → 2 ≤ h → m = some r → 1 / 4 ≤ r →
      decision_reason c h m = (true, none)) := by
  refine ⟨?_, ?_, ?_, ?_, ?_⟩
  · intro hc
    simp [decision_reason, MIN_CYCLE_LONG_VIDEOS, hc]
  · intro hc hh
    have hc2 : ¬ c < 2 := by omega
    simp [decision_reason, MIN_CYCLE_LONG_VIDEOS, MIN_HIGH_RATIO_VIDEOS, hc2, hh]
  · intro hc hh hm
    have hc2 : ¬ c < 2 := by omega
    have hh2 : ¬ h < 2 := by omega
    simp [decision_reason, MIN_CYCLE_LONG_VIDEOS, MIN_HIGH_RATIO_VIDEOS, hc2, hh2, hm]
  · intro r hc hh hm hr
    have hc2 : ¬ c < 2 := by omega
    have hh2 : ¬ h < 2 := by omega
    simp [decision_reason, MIN_CYCLE_LONG_VIDEOS, MIN_HIGH_RATIO_VIDEOS,
      MEDIAN_RATIO_THRESHOLD, hc2, hh2, hm]
    linarith
  · intro r hc hh hm hr
    have hc2 : ¬ c < 2 := by omega
    have hh2 : ¬ h < 2 := by omega
    have hr2 : ¬ r < 1 / 4 := not_lt.mpr hr
    simp [decision_reason, MIN_CYCLE_LONG_VIDEOS, MIN_HIGH_RATIO_VIDEOS,
      MEDIAN_RATIO_THRESHOLD, hc2, hh2, hm]
    linarith

/-- Witness for C2_decision_cases: a qualifying instance. -/
theorem C2_decision_cases_witness :
    decision_reason 2 2 (some (1 / 2)) = (true, none) :=
  (C2_decision_cases 2 2 (some (1 / 2))).2.2.2.2 (1 / 2) (by norm_num) (by norm_num) rfl
    (by norm_num)

/-- Claim C3.  Analysis of a channel with a missing subscriber count is
disqualified with subscriber_count_missing, and with any subscriber count
below 100 it is disqualified with subscriber_count_below_100, both
regardless of the fetched long videos and with every metric field absent. -/
theorem C3_subscriber_prefilter (url : String) (subs : Int) (videos : List Video)
    (hsub : subs < 100) :
    analyze_one_channel url none videos =
      ⟨url, none, none, none, none, none, none, none, false,
        some "subscriber_count_missing"⟩ ∧
    analyze_one_channel url (some subs) videos =
      ⟨url, some subs, none, none, none, none, none, none, false,
        some "subscriber_count_below_100"⟩ := by
  constructor
  · rfl
  · simp [analyze_one_channel, MIN_SUBSCRIBERS, hsub]

/-- Witness for C3_subscriber_prefilter at subscriber_count 50 with a
nonempty video list. -/
theorem C3_subscriber_prefilter_witness :
    analyze_one_channel "u" none [ ⟨"a", some 3, some 7⟩ ] =
      ⟨"u", none, none, none, none, none, none, none, false,
        some "subscriber_count_missing"⟩ ∧
    analyze_one_channel "u" (some 50) [ ⟨"a", some 3, some 7⟩ ] =
      ⟨"u", some 50, none, none, none, none, none, none, false,
        some "subscriber_count_below_100"⟩ :=
  C3_subscriber_prefilter "u" 50 [ ⟨"a", some 3, some 7⟩ ] (by decide)

/-- Claim C10.  A null field never causes validate_video to reject: with a
null views estimate the views rule cannot fire, with a null duration the
duration rule cannot fire, and with both null the video passes with no
reason. -/
theorem C10_null_never_rejects (v p d : Option Int) :
    (v = none → d = none → validate_video v p d = ⟨true, none⟩) ∧
    (v = none → ValidationResult.reason (validate_video v p d) ≠ some "views_too_low") ∧
    (d = none → ValidationResult.reason (validate_video v p d) ≠ some "duration_too_low") := by
  refine ⟨?_, ?_, ?_⟩
  · rintro rfl rfl
    rfl
  · rintro rfl
    simp only [validate_video, views_rule_fails]
    split_ifs <;> first | exact (False.elim (by assumption)) | decide
  · rintro rfl
    simp only [validate_video, duration_rule_fails]
    split_ifs <;> first | exact (False.elim (by assumption)) | decide

/-- Witness for C10_null_never_rejects with both estimates null. -/
theorem C10_null_never_rejects_witness :
    validate_video none none none = ⟨true, none⟩ ∧
    ValidationResult.reason (validate_video none none none) ≠ some "views_too_low" ∧
    ValidationResult.reason (validate_video none none none) ≠ some "duration_too_low" :=
  ⟨(C10_null_never_rejects none none none).1 rfl rfl,
    (C10_null_never_rejects none none none).2.1 rfl,
    (C10_null_never_rejects none none none).2.2 rfl⟩

/-- Helper: whenever the exclusion condition of the scorer holds, the
missing_reason guard fires. -/
theorem missing_reason_isSome (sc cc : Option Int) (mr xr : Option ℝ) (q : Option Bool)
    (h : q ≠ some true ∨ sc = none ∨ cc = none ∨ mr = none ∨ xr = none) :
    (missing_reason sc cc mr xr q).isSome = true := by
  rcases q with _ | b
  · simp [missing_reason]
  · rcases b
    · simp [missing_reason]
    · rcases sc with _ | s <;> rcases cc with _ | c <;> rcases mr with _ | m <;>
        rcases xr with _ | x <;> simp_all [missing_reason]

/-- Claim C6.  For a qualified analysis row with all four metrics present,
the scorer computes performance = clamp(median ratio / 1.0, 0, 1),
peak = clamp(max ratio / 2.0, 0, 1),
consistency = clamp(log2(cycle count) / log2(10), 0, 1) and 0 for a
non-positive count, size = 1 - clamp(log10(subscribers) / 6, 0, 1) and 1.0
for non-positive subscribers, and the final score clamps the 0.40, 0.25,
0.20, 0.15 weighted sum to the unit interval. -/
theorem C6_score_formulas (url : String) (hurl : url ≠ "") (s c : Int) (m x : ℝ) :
    score_one ⟨some url, some s, some c, some m, some x, some true⟩ =
      some ⟨url,
        clamp (0.40 * clamp (m / 1.0) 0 1 + 0.25 * clamp (x / 2.0) 0 1 +
          0.20 * (if c ≤ 0 then 0
            else clamp (Real.logb 2 (c : ℝ) / Real.logb 2 10) 0 1) +
          0.15 * (if s ≤ 0 then 1.0
            else 1.0 - clamp (Real.logb 10 (s : ℝ) / 6.0) 0 1)) 0 1,
        clamp (m / 1.0) 0 1,
        clamp (x / 2.0) 0 1,
        if c ≤ 0 then 0 else clamp (Real.logb 2 (c : ℝ) / Real.logb 2 10) 0 1,
        if s ≤ 0 then 1.0 else 1.0 - clamp (Real.logb 10 (s : ℝ) / 6.0) 0 1⟩ := by
  simp [score_one, missing_reason, score_components, W_PERF, W_PEAK, W_CONSISTENCY,
    W_SIZE, hurl]

/-- Witness for C6_score_formulas at a concrete qualified row. -/
theorem C6_score_formulas_witness :
    score_one ⟨some "u", some 1000, some 5, some (1 / 2 : ℝ), some 1, some true⟩ =
      some ⟨"u",
        clamp (0.40 * clamp ((1 / 2 : ℝ) / 1.0) 0 1 + 0.25 * clamp ((1 : ℝ) / 2.0) 0 1 +
          0.20 * (if (5 : Int) ≤ 0 then 0
            else clamp (Real.logb 2 ((5 : Int) : ℝ) / Real.logb 2 10) 0 1) +
          0.15 * (if (1000 : Int) ≤ 0 then 1.0
            else 1.0 - clamp (Real.logb 10 ((1000 : Int) : ℝ) / 6.0) 0 1)) 0 1,
        clamp ((1 / 2 : ℝ) / 1.0) 0 1,
        clamp ((1 : ℝ) / 2.0) 0 1,
        if (5 : Int) ≤ 0 then 0 else clamp (Real.logb 2 ((5 : Int) : ℝ) / Real.logb 2 10) 0 1,
        if (1000 : Int) ≤ 0 then 1.0
          else 1.0 - clamp (Real.logb 10 ((1000 : Int) : ℝ) / 6.0) 0 1⟩ :=
  C6_score_formulas "u" (by decide) 1000 5 (1 / 2) 1

/-- Claim C7.  For an analysis row (keyed by a channel url) where qualified
is not true or any of the four metric fields is missing, the scorer
produces the all-zero score row: final score 0 and every sub-score 0. -/
theorem C7_exclusion_zero (row : AnalysisDbRow) (url : String)
    (hurl : row.channel_url = some url) (hne : url ≠ "")
    (hexcl : row.qualified ≠ some true ∨ row.subscriber_count = none ∨
      row.cycle_long_videos_count = none ∨ row.median_views_ratio_ = none ∨
      row.max_views_ratio_ = none) :
    score_one row = some ⟨url, 0, 0, 0, 0, 0⟩ := by
  obtain ⟨r, hr⟩ := Option.isSome_iff_exists.mp
    (missing_reason_isSome row.subscriber_count row.cycle_long_videos_count
      row.median_views_ratio_ row.max_views_ratio_ row.qualified hexcl)
  rcases row with ⟨cu, sc, cc, mr, xr, q⟩
  simp only at hurl hr
  subst hurl
  simp [score_one, hne, hr]

/-- Witness for C7_exclusion_zero at a disqualified row. -/
theorem C7_exclusion_zero_witness :
    score_one ⟨some "u", none, none, none, none, some false⟩ = some ⟨"u", 0, 0, 0, 0, 0⟩ :=
  C7_exclusion_zero ⟨some "u", none, none, none, none, some false⟩ "u" rfl (by decide)
    (Or.inl (by decide))

/-- Claim C8.  Inserting a raw video with a fresh video_id reports
(inserted, ignored) = (1, 0); re-inserting any raw video with the same
video_id into the resulting table reports (0, 1), and the table holds
exactly one row under that key, built from the first write. -/
theorem C8_insert_first_writer_wins (t : VideosRawTable) (run1 run2 : Nat)
    (v1 v2 : RawVideoIn) (id : String) (h1 : v1.video_id = some id)
    (h2 : v2.video_id = some id) (hne : id ≠ "") (habs : id ∉ t.map Prod.fst) :
    (insert_videos_raw run1 [v1] t).2 = (1, 0) ∧
    (insert_videos_raw run2 [v2] (insert_videos_raw run1 [v1] t).1).2 = (0, 1) ∧
    (insert_videos_raw run2 [v2] (insert_videos_raw run1 [v1] t).1).1.filter
        (fun p => p.1 == id) =
      [(id, build_row run1 id v1)] := by
  have hb1 : prepare_batch [] [v1] = [(id, v1)] := by
    simp [prepare_batch, h1, hne]
  have hb2 : prepare_batch [] [v2] = [(id, v2)] := by
    simp [prepare_batch, h2, hne]
  have hfirst : insert_videos_raw run1 [v1] t =
      (t ++ [(id, build_row run1 id v1)], 1, 0) := by
    simp [insert_videos_raw, hb1, insert_rows, habs]
  have hmem : id ∈ (t ++ [(id, build_row run1 id v1)]).map Prod.fst := by
    simp
  have hsecond : insert_videos_raw run2 [v2] (t ++ [(id, build_row run1 id v1)]) =
      (t ++ [(id, build_row run1 id v1)], 0, 1) := by
    simp [insert_videos_raw, hb2, insert_rows, hmem]
  have hfilter : t.filter (fun p => p.1 == id) = [] := by
    rw [List.filter_eq_nil_iff]
    intro p hp
    simp only [beq_iff_eq]
    intro hid
    exact habs (hid ▸ List.mem_map_of_mem Prod.fst hp)
  refine ⟨by rw [hfirst], by rw [hfirst, hsecond], ?_⟩
  rw [hfirst, hsecond]
  simp [List.filter_append, hfilter]

/-- Witness for C8_insert_first_writer_wins on an empty table, with a
second write that differs from the first in every optional field. -/
theorem C8_insert_first_writer_wins_witness :
    (insert_videos_raw 1 [ ⟨some "vid", none, none, [], none, none, none, none, none⟩ ] []).2 =
      (1, 0) ∧
    (insert_videos_raw 2 [ ⟨some "vid", some "q", none, [], none, none, none, none, none⟩ ]
        (insert_videos_raw 1 [ ⟨some "vid", none, none, [], none, none, none, none, none⟩ ] []).1).2 =
      (0, 1) ∧
    (insert_videos_raw 2 [ ⟨some "vid", some "q", none, [], none, none, none, none, none⟩ ]
        (insert_videos_raw 1 [ ⟨some "vid", none, none, [], none, none, none, none, none⟩ ] []).1).1.filter
        (fun p => p.1 == "vid") =
      [("vid", build_row 1 "vid" ⟨some "vid", none, none, [], none, none, none, none, none⟩)] :=
  C8_insert_first_writer_wins [] 1 2 ⟨some "vid", none, none, [], none, none, none, none, none⟩
    ⟨some "vid", some "q", none, [], none, none, none, none, none⟩ "vid" rfl rfl (by decide)
    (by decide)

/-- The unlimited candidate set of a claim stage: upstream keys neither
terminal nor claimed. -/
def all_candidates (db : ClaimDB) : List String :=
  db.upstream.filter (fun k => decide (k ∉ db.terminal ∧ k ∉ db.claims))

/-- Helper: inserting pairwise-distinct keys none of which is claimed yet
returns all of them and appends them to the claim table. -/
theorem claim_insert_all_new (l : List String) :
    ∀ db : ClaimDB, l.Nodup → (∀ k ∈ l, k ∉ db.claims) →
      claim_insert db l = (l, ⟨db.upstream, db.terminal, db.claims ++ l⟩) := by
  induction l with
  | nil => intro db _ _; simp [claim_insert]
  | cons k rest ih =>
    intro db hnd hnew
    have hk : k ∉ db.claims := hnew k (List.mem_cons_self k rest)
    have hrest := ih ⟨db.upstream, db.terminal, db.claims ++ [k]⟩ hnd.of_cons
      (by
        intro x hx
        simp only [List.mem_append, List.mem_singleton]
        rintro (hc | rfl)
        · exact hnew x (List.mem_cons_of_mem k hx) hc
        · exact (List.nodup_cons.mp hnd).1 hx)
    simp [claim_insert, hk, hrest]

/-- Helper: inserting keys that are all already claimed returns nothing and
leaves the state unchanged. -/
theorem claim_insert_all_old (l : List String) :
    ∀ db : ClaimDB, (∀ k ∈ l, k ∈ db.claims) → claim_insert db l = ([], db) := by
  induction l with
  | nil => intro db _; rfl
  | cons k rest ih =>
    intro db hold
    have hk : k ∈ db.claims := hold k (List.mem_cons_self k rest)
    have hrest := ih db (fun x hx => hold x (List.mem_cons_of_mem k hx))
    simp [claim_insert, hk, hrest]

/-- Claim C9.  Two concurrent claim calls that select candidates from the
same snapshot (the maximal overlap race), with a batch size at least the
whole candidate set, partition the candidate set: the serialized
conflict-filtered inserts give the first call every candidate and the
second call nothing, so the union of the returned key sets is the
candidate set and no key is returned twice.  Each call is one atomic
select-insert-return step, and keys losing the race are silently excluded. -/
theorem C9_claim_exclusivity (db : ClaimDB) (limit : Nat) (hnodup : db.upstream.Nodup)
    (hlim : (all_candidates db).length ≤ limit) :
    (claim_call db db limit).1 = all_candidates db ∧
    (claim_call db (claim_call db db limit).2 limit).1 = [] ∧
    (claim_call db db limit).1 ++ (claim_call db (claim_call db db limit).2 limit).1 =
      all_candidates db ∧
    ∀ k ∈ (claim_call db db limit).1, k ∉ (claim_call db (claim_call db db limit).2 limit).1 := by
  have hcand : claim_candidates db limit = all_candidates db := by
    rw [claim_candidates]
    exact List.take_of_length_le hlim
  have hnd : (all_candidates db).Nodup := hnodup.filter _
  have hnew : ∀ k ∈ all_candidates db, k ∉ db.claims := by
    intro k hk
    have := List.of_mem_filter hk
    simp only [decide_eq_true_eq] at this
    exact this.2
  have hfirst : claim_call db db limit =
      (all_candidates db, ⟨db.upstream, db.terminal, db.claims ++ all_candidates db⟩) := by
    rw [claim_call, hcand]
    exact claim_insert_all_new _ db hnd hnew
  have hsecond :
      claim_call db (⟨db.upstream, db.terminal, db.claims ++ all_candidates db⟩ : ClaimDB)
        limit = ([], ⟨db.upstream, db.terminal, db.claims ++ all_candidates db⟩) := by
    rw [claim_call, hcand]
    exact claim_insert_all_old _ _ (by intro k hk; simp [hk])
  refine ⟨by rw [hfirst], by rw [hfirst, hsecond], by rw [hfirst, hsecond]; simp, ?_⟩
  intro k hk
  rw [hfirst, hsecond]
  simp

/-- Witness for C9_claim_exclusivity on a concrete two-candidate state. -/
theorem C9_claim_exclusivity_witness :
    (claim_call ⟨[ "a", "b" ], [], []⟩ ⟨[ "a", "b" ], [], []⟩ 2).1 =
      all_candidates ⟨[ "a", "b" ], [], []⟩ ∧
    (claim_call ⟨[ "a", "b" ], [], []⟩
        (claim_call ⟨[ "a", "b" ], [], []⟩ ⟨[ "a", "b" ], [], []⟩ 2).2 2).1 = [] ∧
    (claim_call ⟨[ "a", "b" ], [], []⟩ ⟨[ "a", "b" ], [], []⟩ 2).1 ++
        (claim_call ⟨[ "a", "b" ], [], []⟩
          (claim_call ⟨[ "a", "b" ], [], []⟩ ⟨[ "a", "b" ], [], []⟩ 2).2 2).1 =
      all_candidates ⟨[ "a", "b" ], [], []⟩ ∧
    ∀ k ∈ (claim_call ⟨[ "a", "b" ], [], []⟩ ⟨[ "a", "b" ], [], []⟩ 2).1,
      k ∉ (claim_call ⟨[ "a", "b" ], [], []⟩
        (claim_call ⟨[ "a", "b" ], [], []⟩ ⟨[ "a", "b" ], [], []⟩ 2).2 2).1 :=
  C9_claim_exclusivity ⟨[ "a", "b" ], [], []⟩ 2 (by decide) (by decide)

/-! ### Character-level helper lemmas for the number parser -/

/-- Helper: a digit character is not a dot. -/
theorem digit_ne_dot {c : Char} (h : c.isDigit = true) : c ≠ '.' := by
  rintro rfl
  exact absurd h (by decide)

/-- Helper: a digit character is not a comma. -/
theorem digit_ne_comma {c : Char} (h : c.isDigit = true) : c ≠ ',' := by
  rintro rfl
  exact absurd h (by decide)

/-- Helper: a digit character is not whitespace. -/
theorem digit_not_space {c : Char} (h : c.isDigit = true) : is_space c = false := by
  have h1 : c ≠ ' ' := by rintro rfl; exact absurd h (by decide)
  have h2 : c ≠ '\t' := by rintro rfl; exact absurd h (by decide)
  have h3 : c ≠ '\n' := by rintro rfl; exact absurd h (by decide)
  have h4 : c ≠ '\r' := by rintro rfl; exact absurd h (by decide)
  have h5 : c ≠ '\x0b' := by rintro rfl; exact absurd h (by decide)
  have h6 : c ≠ '\x0c' := by rintro rfl; exact absurd h (by decide)
  simp [is_space, h1, h2, h3, h4, h5, h6]

/-- Helper: a dot is not in a list of digits. -/
theorem dot_not_mem_digits {l : List Char} (h : ∀ c ∈ l, c.isDigit = true) : '.' ∉ l :=
  fun hm => absurd (h '.' hm) (by decide)

/-- Helper: a comma is not in a list of digits. -/
theorem comma_not_mem_digits {l : List Char} (h : ∀ c ∈ l, c.isDigit = true) : ',' ∉ l :=
  fun hm => absurd (h ',' hm) (by decide)

/-- Helper: dropWhile is_space is the identity on space-free lists. -/
theorem dropWhile_space_eq_self {l : List Char} (h : ∀ c ∈ l, is_space c = false) :
    l.dropWhile is_space = l := by
  cases l with
  | nil => rfl
  | cons c cs => simp [List.dropWhile_cons, h c (List.mem_cons_self c cs)]

/-- Helper: strip is the identity on space-free lists. -/
theorem strip_no_space {l : List Char} (h : ∀ c ∈ l, is_space c = false) :
    strip l = l := by
  rw [strip, dropWhile_space_eq_self h,
    dropWhile_space_eq_self (fun c hc => h c (List.mem_reverse.mp hc)),
    List.reverse_reverse]

/-- Helper: rfind misses an absent character. -/
theorem rfind_not_mem {l : List Char} {ch : Char} (h : ch ∉ l) : rfind l ch = -1 := by
  induction l with
  | nil => rfl
  | cons x xs ih =>
    have hx : ¬ x = ch := fun hx => h (hx ▸ List.mem_cons_self x xs)
    have hxs := ih (fun hm => h (List.mem_cons_of_mem x hm))
    simp [rfind, hxs, hx]

/-- Helper: rfind of a present character is non-negative. -/
theorem rfind_nonneg {l : List Char} {ch : Char} (h : ch ∈ l) : 0 ≤ rfind l ch := by
  induction l with
  | nil => cases h
  | cons x xs ih =>
    by_cases hm : ch ∈ xs
    · have := ih hm
      simp only [rfind]
      split_ifs <;> omega
    · have hx : x = ch := by
        rcases List.mem_cons.mp h with hh | hh
        · exact hh.symm
        · exact absurd hh hm
      have hxs := rfind_not_mem hm
      simp [rfind, hxs, hx]

/-- Helper: rfind through a cons whose tail holds the character. -/
theorem rfind_cons_of_mem {xs : List Char} {ch : Char} (x : Char) (h : ch ∈ xs) :
    rfind (x :: xs) ch = rfind xs ch + 1 := by
  have := rfind_nonneg h
  simp only [rfind]
  split_ifs <;> omega

/-- Helper: rfind at a head character absent from the tail. -/
theorem rfind_cons_head {xs : List Char} {ch : Char} (h : ch ∉ xs) :
    rfind (ch :: xs) ch = 0 := by
  have := rfind_not_mem h
  simp [rfind, this]

/-- Helper: rfind over an append whose right part holds the character. -/
theorem rfind_append_of_mem {b : List Char} {ch : Char} (a : List Char) (h : ch ∈ b) :
    rfind (a ++ b) ch = a.length + rfind b ch := by
  induction a with
  | nil => simp
  | cons x xs ih =>
    have hb := rfind_nonneg h
    have hmem : ch ∈ xs ++ b := List.mem_append_right xs h
    have := rfind_nonneg hmem
    rw [List.cons_append, rfind_cons_of_mem x hmem, ih]
    simp
    omega

/-- Helper: rfind over an append whose right part misses the character. -/
theorem rfind_append_of_not_mem {b : List Char} {ch : Char} (a : List Char) (h : ch ∉ b) :
    rfind (a ++ b) ch = rfind a ch := by
  induction a with
  | nil => simp [rfind_not_mem h, rfind]
  | cons x xs ih =>
    simp only [List.cons_append, rfind, List.append_eq, ih]

/-- Helper: split_dot is trivial on dot-free lists. -/
theorem split_dot_no_dot {l : List Char} (h : '.' ∉ l) : split_dot l = [l] := by
  induction l with
  | nil => rfl
  | cons c cs ih =>
    have hc : ¬ c = '.' := fun hc => h (hc ▸ List.mem_cons_self c cs)
    have hcs := ih (fun hm => h (List.mem_cons_of_mem c hm))
    simp [split_dot, hc, hcs]

/-- Helper: split_dot splits at the first dot when the left part is
dot-free. -/
theorem split_dot_append {a : List Char} (ha : '.' ∉ a) (l : List Char) :
    split_dot (a ++ '.' :: l) = a :: split_dot l := by
  induction a with
  | nil => simp [split_dot]
  | cons c cs ih =>
    have hc : ¬ c = '.' := fun hc => ha (hc ▸ List.mem_cons_self c cs)
    have hcs := ih (fun hm => ha (List.mem_cons_of_mem c hm))
    simp only [List.cons_append, split_dot, hc, if_false, List.append_eq, hcs]

/-- Helper: parse_float_chars on a nonempty list of digits is its value. -/
theorem parse_float_digits {l : List Char} (h : ∀ c ∈ l, c.isDigit = true)
    (hne : l ≠ []) : parse_float_chars l = some (digits_to_nat l : ℚ) := by
  rw [parse_float_chars, split_dot_no_dot (dot_not_mem_digits h)]
  have hall : l.all Char.isDigit = true := List.all_eq_true.mpr h
  simp [List.isEmpty_iff, hne, hall]

/-- Helper: parse_float_chars on digits-dot-digits is the decimal value. -/
theorem parse_float_point {a b : List Char} (ha : ∀ c ∈ a, c.isDigit = true)
    (hb : ∀ c ∈ b, c.isDigit = true) (hane : a ≠ []) :
    parse_float_chars (a ++ '.' :: b) = some (float_val a b) := by
  rw [parse_float_chars, split_dot_append (dot_not_mem_digits ha) b,
    split_dot_no_dot (dot_not_mem_digits hb)]
  have halla : a.all Char.isDigit = true := List.all_eq_true.mpr ha
  have hallb : b.all Char.isDigit = true := List.all_eq_true.mpr hb
  simp [List.isEmpty_iff, hane, halla, hallb]

/-- Helper: the comma-to-dot map is the identity on comma-free lists. -/
theorem map_comma_dot_of_not_mem {l : List Char} (h : ',' ∉ l) :
    l.map (fun c => if c = ',' then '.' else c) = l := by
  induction l with
  | nil => rfl
  | cons c cs ih =>
    have hc : ¬ c = ',' := fun hc => h (hc ▸ List.mem_cons_self c cs)
    simp [hc, ih (fun hm => h (List.mem_cons_of_mem c hm))]

/-- Helper: filtering out an absent character is the identity. -/
theorem filter_keep_of_not_mem {l : List Char} {ch : Char} (h : ch ∉ l) :
    l.filter (fun c => c != ch) = l := by
  induction l with
  | nil => rfl
  | cons c cs ih =>
    have hc : c ≠ ch := fun hc => h (hc ▸ List.mem_cons_self c cs)
    simp [List.filter_cons, hc, ih (fun hm => h (List.mem_cons_of_mem c hm))]

/-- Helper: every character of a digits-comma-digits token is space-free. -/
theorem no_space_digit_sep {a b : List Char} {sep : Char}
    (ha : ∀ c ∈ a, c.isDigit = true) (hb : ∀ c ∈ b, c.isDigit = true)
    (hsep : is_space sep = false) :
    ∀ c ∈ a ++ sep :: b, is_space c = false := by
  intro c hc
  rcases List.mem_append.mp hc with hc | hc
  · exact digit_not_space (ha c hc)
  · rcases List.mem_cons.mp hc with rfl | hc
    · exact hsep
    · exact digit_not_space (hb c hc)

/-- Helper: the dot-to-dot replacement map is the identity. -/
theorem map_dot_dot (l : List Char) : l.map (fun c => if c = '.' then '.' else c) = l := by
  induction l with
  | nil => rfl
  | cons c cs ih =>
    by_cases hc : c = '.'
    · subst hc; simp [ih]
    · simp [hc, ih]

/-- Claim C4, counterexample.  The numeric token "1,2" with no magnitude
suffix parses as 12 (the comma is stripped as thousands grouping), not as
the decimal 1.2 the claim predicts for a single separator not followed by
exactly 3 digits. -/
theorem C4_counterexample :
    parse_human_number [ '1', ',', '2' ] false = some ((12 : Nat) : ℚ) ∧
    ((12 : Nat) : ℚ) ≠ 12 / 10 := by
  constructor
  · rfl
  · norm_num

/-- Claim C4, amended.  For numeric tokens made of digit groups: when both
separators appear, the rightmost one is the decimal separator and the other
is stripped as grouping; when exactly one separator appears and a suffix is
present, it is the decimal separator; when a dot appears alone with no
suffix, it is grouping exactly when followed by a single 3-digit group and
decimal otherwise; when a comma appears alone with no suffix it is always
stripped as grouping. -/
theorem C4_separator_policy (a b : List Char) (ha : ∀ c ∈ a, c.isDigit = true)
    (hb : ∀ c ∈ b, c.isDigit = true) (hane : a ≠ []) (hbne : b ≠ []) :
    (parse_human_number (a ++ ',' :: b) true = some (float_val a b)) ∧
    (parse_human_number (a ++ ',' :: b) false = some (digits_to_nat (a ++ b) : ℚ)) ∧
    (parse_human_number (a ++ '.' :: b) true = some (float_val a b)) ∧
    (b.length = 3 → parse_human_number (a ++ '.' :: b) false =
      some (digits_to_nat (a ++ b) : ℚ)) ∧
    (b.length ≠ 3 → parse_human_number (a ++ '.' :: b) false = some (float_val a b)) ∧
    (∀ d : List Char, (∀ c ∈ d, c.isDigit = true) → d ≠ [] → ∀ suf : Bool,
      parse_human_number (a ++ '.' :: (b ++ ',' :: d)) suf = some (float_val (a ++ b) d) ∧
      parse_human_number (a ++ ',' :: (b ++ '.' :: d)) suf = some (float_val (a ++ b) d)) := by
  have hda := dot_not_mem_digits ha
  have hdb := dot_not_mem_digits hb
  have hca := comma_not_mem_digits ha
  have hcb := comma_not_mem_digits hb
  have hab : ∀ c ∈ a ++ b, c.isDigit = true := by
    intro c hc
    rcases List.mem_append.mp hc with h | h
    · exact ha c h
    · exact hb c h
  have habne : a ++ b ≠ [] := by simp [hane]
  -- facts about the comma token
  have hstrip1 : strip (a ++ ',' :: b) = a ++ ',' :: b :=
    strip_no_space (no_space_digit_sep ha hb (by decide))
  have hne1 : a ++ ',' :: b ≠ [] := by simp
  have hcm1 : ',' ∈ a ++ ',' :: b :=
    List.mem_append_right a (List.mem_cons_self ',' b)
  have hdm1 : '.' ∉ a ++ ',' :: b := by
    intro hm
    rcases List.mem_append.mp hm with h | h
    · exact hda h
    · rcases List.mem_cons.mp h with h | h
      · exact absurd h (by decide)
      · exact hdb h
  -- facts about the dot token
  have hstrip2 : strip (a ++ '.' :: b) = a ++ '.' :: b :=
    strip_no_space (no_space_digit_sep ha hb (by decide))
  have hne2 : a ++ '.' :: b ≠ [] := by simp
  have hdm2 : '.' ∈ a ++ '.' :: b :=
    List.mem_append_right a (List.mem_cons_self '.' b)
  have hcm2 : ',' ∉ a ++ '.' :: b := by
    intro hm
    rcases List.mem_append.mp hm with h | h
    · exact hca h
    · rcases List.mem_cons.mp h with h | h
      · exact absurd h (by decide)
      · exact hcb h
  refine ⟨?_, ?_, ?_, ?_, ?_, ?_⟩
  · -- single comma, suffix present: decimal
    simp only [parse_human_number]
    rw [hstrip1]
    simp [List.isEmpty_iff, hne1, hdm1, hcm1, map_comma_dot_of_not_mem hca,
      map_comma_dot_of_not_mem hcb, parse_float_point ha hb hane]
  · -- single comma, no suffix: grouping
    simp only [parse_human_number]
    rw [hstrip1]
    simp [List.isEmpty_iff, hne1, hdm1, hcm1, filter_keep_of_not_mem hca,
      filter_keep_of_not_mem hcb, parse_float_digits hab habne]
  · -- single dot, suffix present: decimal
    simp only [parse_human_number]
    rw [hstrip2]
    simp [List.isEmpty_iff, hne2, hdm2, hcm2, parse_float_point ha hb hane]
  · -- single dot, no suffix, 3-digit group: grouping
    intro hlen
    simp only [parse_human_number]
    rw [hstrip2]
    simp [List.isEmpty_iff, hne2, hdm2, hcm2, split_dot_append hda b,
      split_dot_no_dot hdb, hlen, parse_float_digits hab habne]
  · -- single dot, no suffix, otherwise: decimal
    intro hlen
    simp only [parse_human_number]
    rw [hstrip2]
    simp [List.isEmpty_iff, hne2, hdm2, hcm2, split_dot_append hda b,
      split_dot_no_dot hdb, hlen, parse_float_point ha hb hane]
  · -- both separators: the rightmost one is decimal
    intro d hd hdne suf
    have hcd := comma_not_mem_digits hd
    have hdd := dot_not_mem_digits hd
    constructor
    · -- dot first, comma last: comma is decimal, dots stripped
      have hsp : ∀ c ∈ a ++ '.' :: (b ++ ',' :: d), is_space c = false := by
        intro c hc
        rcases List.mem_append.mp hc with h | h
        · exact digit_not_space (ha c h)
        · rcases List.mem_cons.mp h with rfl | h
          · decide
          · rcases List.mem_append.mp h with h | h
            · exact digit_not_space (hb c h)
            · rcases List.mem_cons.mp h with rfl | h
              · decide
              · exact digit_not_space (hd c h)
      have hstrip : strip (a ++ '.' :: (b ++ ',' :: d)) = a ++ '.' :: (b ++ ',' :: d) :=
        strip_no_space hsp
      have hnet : a ++ '.' :: (b ++ ',' :: d) ≠ [] := by simp
      have hcmem : ',' ∈ a ++ '.' :: (b ++ ',' :: d) :=
        List.mem_append_right a (List.mem_cons_of_mem '.'
          (List.mem_append_right b (List.mem_cons_self ',' d)))
      have hdmem : '.' ∈ a ++ '.' :: (b ++ ',' :: d) :=
        List.mem_append_right a (List.mem_cons_self '.' (b ++ ',' :: d))
      have hrc : rfind (a ++ '.' :: (b ++ ',' :: d)) ',' =
          a.length + (b.length + 0 + 1) := by
        rw [rfind_append_of_mem a (List.mem_cons_of_mem '.'
            (List.mem_append_right b (List.mem_cons_self ',' d))),
          rfind_cons_of_mem '.' (List.mem_append_right b (List.mem_cons_self ',' d)),
          rfind_append_of_mem b (List.mem_cons_self ',' d), rfind_cons_head hcd]
      have hrd : rfind (a ++ '.' :: (b ++ ',' :: d)) '.' = a.length + 0 := by
        have hview : a ++ '.' :: (b ++ ',' :: d) = (a ++ [ '.' ]) ++ (b ++ ',' :: d) := by
          simp
        have hnm : '.' ∉ b ++ ',' :: d := by
          intro hm
          rcases List.mem_append.mp hm with h | h
          · exact hdb h
          · rcases List.mem_cons.mp h with h | h
            · exact absurd h (by decide)
            · exact hdd h
        rw [hview, rfind_append_of_not_mem (a ++ [ '.' ]) hnm,
          rfind_append_of_mem a (List.mem_cons_self '.' []),
          rfind_cons_head (List.not_mem_nil '.')]
      have hgt : rfind (a ++ '.' :: (b ++ ',' :: d)) ',' >
          rfind (a ++ '.' :: (b ++ ',' :: d)) '.' := by
        rw [hrc, hrd]
        omega
      simp only [parse_human_number]
      rw [hstrip]
      rw [if_neg (by simp [List.isEmpty_iff, hnet])]
      rw [if_pos ⟨hcmem, hdmem⟩, if_pos hgt]
      dsimp only
      simp [filter_keep_of_not_mem (dot_not_mem_digits ha),
        filter_keep_of_not_mem (dot_not_mem_digits hb),
        filter_keep_of_not_mem (dot_not_mem_digits hd),
        map_comma_dot_of_not_mem hca, map_comma_dot_of_not_mem hcb,
        map_comma_dot_of_not_mem hcd]
      rw [← List.append_assoc, parse_float_point hab hd habne]
    · -- comma first, dot last: dot is decimal, commas stripped
      have hsp : ∀ c ∈ a ++ ',' :: (b ++ '.' :: d), is_space c = false := by
        intro c hc
        rcases List.mem_append.mp hc with h | h
        · exact digit_not_space (ha c h)
        · rcases List.mem_cons.mp h with rfl | h
          · decide
          · rcases List.mem_append.mp h with h | h
            · exact digit_not_space (hb c h)
            · rcases List.mem_cons.mp h with rfl | h
              · decide
              · exact digit_not_space (hd c h)
      have hstrip : strip (a ++ ',' :: (b ++ '.' :: d)) = a ++ ',' :: (b ++ '.' :: d) :=
        strip_no_space hsp
      have hnet : a ++ ',' :: (b ++ '.' :: d) ≠ [] := by simp
      have hcmem : ',' ∈ a ++ ',' :: (b ++ '.' :: d) :=
        List.mem_append_right a (List.mem_cons_self ',' (b ++ '.' :: d))
      have hdmem : '.' ∈ a ++ ',' :: (b ++ '.' :: d) :=
        List.mem_append_right a (List.mem_cons_of_mem ','
          (List.mem_append_right b (List.mem_cons_self '.' d)))
      have hrd : rfind (a ++ ',' :: (b ++ '.' :: d)) '.' =
          a.length + (b.length + 0 + 1) := by
        rw [rfind_append_of_mem a (List.mem_cons_of_mem ','
            (List.mem_append_right b (List.mem_cons_self '.' d))),
          rfind_cons_of_mem ',' (List.mem_append_right b (List.mem_cons_self '.' d)),
          rfind_append_of_mem b (List.mem_cons_self '.' d), rfind_cons_head hdd]
      have hrc : rfind (a ++ ',' :: (b ++ '.' :: d)) ',' = a.length + 0 := by
        have hview : a ++ ',' :: (b ++ '.' :: d) = (a ++ [ ',' ]) ++ (b ++ '.' :: d) := by
          simp
        have hnm : ',' ∉ b ++ '.' :: d := by
          intro hm
          rcases List.mem_append.mp hm with h | h
          · exact hcb h
          · rcases List.mem_cons.mp h with h | h
            · exact absurd h (by decide)
            · exact hcd h
        rw [hview, rfind_append_of_not_mem (a ++ [ ',' ]) hnm,
          rfind_append_of_mem a (List.mem_cons_self ',' []),
          rfind_cons_head (List.not_mem_nil ',')]
      have hngt : ¬ (rfind (a ++ ',' :: (b ++ '.' :: d)) ',' >
          rfind (a ++ ',' :: (b ++ '.' :: d)) '.') := by
        rw [hrc, hrd]
        omega
      simp only [parse_human_number]
      rw [hstrip]
      rw [if_neg (by simp [List.isEmpty_iff, hnet])]
      rw [if_pos ⟨hcmem, hdmem⟩, if_neg hngt]
      dsimp only
      simp [filter_keep_of_not_mem hca, filter_keep_of_not_mem hcb,
        filter_keep_of_not_mem hcd, map_dot_dot]
      rw [← List.append_assoc, parse_float_point hab hd habne]

/-- Witness for C4_separator_policy at the tokens 1,2 (suffix), 1.2,3 and
1,2.3. -/
theorem C4_separator_policy_witness :
    parse_human_number [ '1', ',', '2' ] true = some (float_val [ '1' ] [ '2' ]) ∧
    parse_human_number [ '1', '.', '2', ',', '3' ] false =
      some (float_val ([ '1' ] ++ [ '2' ]) [ '3' ]) ∧
    parse_human_number [ '1', ',', '2', '.', '3' ] false =
      some (float_val ([ '1' ] ++ [ '2' ]) [ '3' ]) :=
  ⟨(C4_separator_policy [ '1' ] [ '2' ] (by decide) (by decide) (by decide) (by decide)).1,
    ((C4_separator_policy [ '1' ] [ '2' ] (by decide) (by decide) (by decide)
        (by decide)).2.2.2.2.2 [ '3' ] (by decide) (by decide) false).1,
    ((C4_separator_policy [ '1' ] [ '2' ] (by decide) (by decide) (by decide)
        (by decide)).2.2.2.2.2 [ '3' ] (by decide) (by decide) false).2⟩

/-- Helper: truncation of an integer-valued rational is that integer. -/
theorem rat_trunc_intCast (n : Int) : rat_trunc (n : ℚ) = n := by
  simp [rat_trunc, Rat.num_intCast, Rat.den_intCast]

/-- Claim C5, evaluation of parse_views_text at the acceptance inputs.
The input 3,4 mil is the failing one: the suffix alternation of the views
regex tries the character class k, m, b before the word alternatives, so
the token m of mil matches first, the multiplier is 1000000 and the result
is 3400000 — although the multiplier table of the source maps mil to 1000
and its docstring lists 3,4 mil as a handled format, which the spec
(3400) follows.  The remaining documented values hold. -/
theorem C5_parse_views_values :
    parse_views_text (some "3,4 mil") = some 3400000 ∧
    parse_views_text (some "1.2K") = some 1200 ∧
    parse_views_text (some "sin vistas") = some 0 ∧
    parse_views_text (some "") = none ∧
    parse_views_text none = none := by
  refine ⟨?_, ?_, by decide, by decide, rfl⟩
  · have h1 : parse_views_text (some "3,4 mil") =
        some (max 0 (rat_trunc (float_val [ '3' ] [ '4' ] *
          ((suffix_multiplier [ 'm' ] : Int) : ℚ)))) := rfl
    have h2 : float_val [ '3' ] [ '4' ] * ((suffix_multiplier [ 'm' ] : Int) : ℚ) =
        ((3400000 : Int) : ℚ) := by
      have hm : suffix_multiplier [ 'm' ] = 1000000 := by decide
      have d3 : digits_to_nat [ '3' ] = 3 := by decide
      have d4 : digits_to_nat [ '4' ] = 4 := by decide
      rw [float_val, hm, d3, d4]
      norm_num
    rw [h1, h2, rat_trunc_intCast]
    decide
  · have h1 : parse_views_text (some "1.2K") =
        some (max 0 (rat_trunc (float_val [ '1' ] [ '2' ] *
          ((suffix_multiplier [ 'k' ] : Int) : ℚ)))) := rfl
    have h2 : float_val [ '1' ] [ '2' ] * ((suffix_multiplier [ 'k' ] : Int) : ℚ) =
        ((1200 : Int) : ℚ) := by
      have hm : suffix_multiplier [ 'k' ] = 1000 := by decide
      have d1 : digits_to_nat [ '1' ] = 1 := by decide
      have d2 : digits_to_nat [ '2' ] = 2 := by decide
      rw [float_val, hm, d1, d2]
      norm_num
    rw [h1, h2, rat_trunc_intCast]
    decide

end YtScraper
